import Mathlib

/-!
# Verification of the pyinter interval library

Shallow embedding of `pyinter` (`pyinter/bound.py`, `pyinter/extrema.py`,
`pyinter/interval.py`, `pyinter/interval_set.py`) and proofs about it.

Modelling conventions:
* The domain value type is `EVal`: integers together with the two sentinel
  extrema `NEGATIVE_INFINITY` / `INFINITY` from `extrema.py` (less than /
  greater than every other value, each equal only to itself).
* Python `cmp` results are `Ordering`; `a or b` chaining of `cmp` results is
  `Ordering.then`.
* PyInterval payload tags (`data`, a Python `set`) are a `Finset String`
  (extensional equality, deduplication, union - exactly Python set
  semantics for hashable opaque tags).
* Fallible Python code (a `raise`) is modelled in `Except PyErr`.
* Python reads the attribute `is_lower` on `Bound` objects inside the sweep
  loops of `interval.py`; class `Bound` defines no such attribute, so the
  lookup raises `AttributeError`.  This is modelled by `bound_is_lower`
  below, justified by the member table `boundClassMembers` copied from
  `bound.py`.
-/

/-- Python exceptions that can escape the modelled code. `outOfFuel` is an
artifact of the fuel-bounded modelling of the unbounded `while` loop in
`IntervalSet.update`; it is never the result of any execution examined here. -/
inductive PyErr where
  | attributeError
  | valueError
  | outOfFuel
deriving DecidableEq, Repr

/-- Domain values: integers extended with the sentinel extrema of
`extrema.py` (`NEGATIVE_INFINITY` is less than everything but itself,
`INFINITY` greater than everything but itself, each equal only to itself). -/
inductive EVal where
  | ninf
  | fin (v : Int)
  | inf
deriving DecidableEq, Repr

/-- Python 2 `cmp` on integers. -/
def cmpInt (a b : Int) : Ordering :=
  if a < b then .lt else if b < a then .gt else .eq

/-- Python 2 `cmp` on domain values, per the comparison methods of
`_NegativeInfinity` and `_Infinity` in `extrema.py`. -/
def cmpEVal : EVal → EVal → Ordering
  | .ninf, .ninf => .eq
  | .ninf, _ => .lt
  | _, .ninf => .gt
  | .inf, .inf => .eq
  | .inf, _ => .gt
  | _, .inf => .lt
  | .fin a, .fin b => cmpInt a b

/-- The four comparison operators a `Bound` can carry
(`operator.lt/le/ge/gt` in `bound.py`). -/
inductive Op where
  | lt
  | le
  | ge
  | gt
deriving DecidableEq, Repr

/-- `Bound.OPERATOR_ORDER` from `bound.py`: the logical order of operators at
the same value, `...)[value](...`. -/
def operatorOrder : Op → Int
  | .lt => -2
  | .ge => -1
  | .le => 1
  | .gt => 2

/-- `Bound.OPPOSITE_OPERATORS` from `bound.py`. -/
def oppositeOp : Op → Op
  | .lt => .ge
  | .le => .gt
  | .ge => .lt
  | .gt => .le

/-- A single directed interval endpoint: `Bound` from `bound.py`,
a value plus a comparison operator. -/
structure Bound where
  value : EVal
  op : Op
deriving DecidableEq, Repr

namespace Bound

/-- Shortcut constructor `Bound.lt` from `bound.py`. -/
def mklt (v : EVal) : Bound := ⟨v, .lt⟩

/-- Shortcut constructor `Bound.le` from `bound.py`. -/
def mkle (v : EVal) : Bound := ⟨v, .le⟩

/-- Shortcut constructor `Bound.ge` from `bound.py`. -/
def mkge (v : EVal) : Bound := ⟨v, .ge⟩

/-- Shortcut constructor `Bound.gt` from `bound.py`. -/
def mkgt (v : EVal) : Bound := ⟨v, .gt⟩

/-- `Bound.__cmp__` from `bound.py`:
`cmp(self.value, other.value) or cmp(self._order, other._order)`. -/
def cmp (a b : Bound) : Ordering :=
  (cmpEVal a.value b.value).then (cmpInt (operatorOrder a.op) (operatorOrder b.op))

/-- `Bound.is_opposite_of` from `bound.py`: same value and the other
operator is the opposite of this one. -/
def is_opposite_of (self other : Bound) : Bool :=
  decide (self.value = other.value) && decide (other.op = oppositeOp self.op)

/-- `Bound.__invert__` from `bound.py`: same value, opposite operator. -/
def invert (b : Bound) : Bound := ⟨b.value, oppositeOp b.op⟩

/-- `Bound.__contains__` from `bound.py`: `self._operator(value, self._value)`. -/
def containsVal (b : Bound) (v : EVal) : Bool :=
  match b.op with
  | .lt => cmpEVal v b.value = .lt
  | .le => cmpEVal v b.value ≠ .gt
  | .ge => cmpEVal v b.value ≠ .lt
  | .gt => cmpEVal v b.value = .gt

/-- `Bound.__hash__` from `bound.py` hashes the pair
`(self.value, self._order)`; the Python hash is a pure function of this key,
so equal keys give equal hashes. -/
def hashKey (b : Bound) : EVal × Int := (b.value, operatorOrder b.op)

end Bound

/-- The attribute and method names defined by class `Bound` in
`pyinter/bound.py` (class body plus instances created by `__init__`).
Note that `is_lower` is not among them. -/
def boundClassMembers : List String :=
  ["OPPOSITE_OPERATORS", "OPERATOR_ORDER", "PREFIXES_SUFFIXES",
   "_value", "_operator", "_order",
   "lt", "le", "ge", "gt", "__init__", "value", "operator",
   "is_opposite_of", "__contains__", "__cmp__", "__repr__",
   "__unicode__", "__hash__", "__str__", "__invert__"]

/-- The attribute read `bound.is_lower` performed by the sweep loops in
`pyinter/interval.py` (lines 143, 283, 361, 426).  Class `Bound` defines no
attribute `is_lower` (see `boundClassMembers`), and no `__getattr__` hook, so
in Python this lookup raises `AttributeError` for every `Bound`. -/
def bound_is_lower (_b : Bound) : Except PyErr Bool :=
  .error .attributeError

/-- `Interval` from `interval.py`: a pair of `Bound`s plus a payload tag set
(`self._data`). -/
structure PyInterval where
  lower : Bound
  upper : Bound
  data : Finset String
deriving DecidableEq

namespace PyInterval

/-- `PyInterval.__init__` from `interval.py`: raises `ValueError` when
`lower > upper` under `Bound` ordering, otherwise stores both bounds
unchanged together with the payload set (`data`/`data_set` keyword
arguments both populate `self._data`; we take the resulting set directly). -/
def make (lower upper : Bound) (dat : Finset String) : Except PyErr PyInterval :=
  if Bound.cmp lower upper = .gt then .error .valueError
  else .ok ⟨lower, upper, dat⟩

/-- `PyInterval.closed` from `interval.py`: `Bound(lo, ge)`, `Bound(hi, le)`. -/
def closed (lo hi : EVal) (dat : Finset String) : Except PyErr PyInterval :=
  make (Bound.mkge lo) (Bound.mkle hi) dat

/-- `PyInterval.open` from `interval.py`: `Bound(lo, gt)`, `Bound(hi, lt)`. -/
def openIv (lo hi : EVal) (dat : Finset String) : Except PyErr PyInterval :=
  make (Bound.mkgt lo) (Bound.mklt hi) dat

/-- `PyInterval.__cmp__` from `interval.py`:
`cmp(self.lower, other.lower) or cmp(self.upper, other.upper)` -
the payload `data` does not participate. -/
def cmp (a b : PyInterval) : Ordering :=
  (Bound.cmp a.lower b.lower).then (Bound.cmp a.upper b.upper)

/-- `PyInterval.__hash__` from `interval.py` hashes the pair
`(self.lower, self.upper)`; the Python hash is a pure function of this key
(tuple hashing combines the component hashes), so equal keys give equal
hashes.  `data` does not participate. -/
def hashKey (i : PyInterval) : (EVal × Int) × (EVal × Int) :=
  (i.lower.hashKey, i.upper.hashKey)

/-- `PyInterval._contains_value` from `interval.py`:
`value in self.lower and value in self.upper`. -/
def containsValue (i : PyInterval) (v : EVal) : Bool :=
  i.lower.containsVal v && i.upper.containsVal v

/-- `PyInterval.overlaps` from `interval.py`:
`self.lower <= other.upper and self.upper >= other.lower`. -/
def overlaps (self other : PyInterval) : Bool :=
  decide (Bound.cmp self.lower other.upper ≠ .gt)
    && decide (Bound.cmp self.upper other.lower ≠ .lt)

end PyInterval

instance {ε α : Type} [DecidableEq ε] [DecidableEq α] : DecidableEq (Except ε α) :=
  fun a b =>
    match a, b with
    | .ok x, .ok y =>
      if h : x = y then .isTrue (congrArg Except.ok h)
      else .isFalse (fun hc => h (Except.ok.inj hc))
    | .error e, .error f =>
      if h : e = f then .isTrue (congrArg Except.error h)
      else .isFalse (fun hc => h (Except.error.inj hc))
    | .ok _, .error _ => .isFalse (fun hc => Except.noConfusion hc)
    | .error _, .ok _ => .isFalse (fun hc => Except.noConfusion hc)

/-- Iteration over a Python tag set (`data_stack.extend(interval.data)`,
`for item in interval.data`).  Python set iteration order is arbitrary; the
sweep only ever uses `data_stack` as a multiset (append, remove one
occurrence by value, convert back to a set), so any deterministic order is
observationally equal.  We iterate in sorted order (insertion sort lifted
over the multiset quotient, so that it evaluates by kernel reduction). -/
def dataList (d : Finset String) : List String :=
  Quot.liftOn d.val (List.insertionSort (· ≤ ·)) (fun a b h =>
    List.eq_of_perm_of_sorted
      ((List.perm_insertionSort _ a).trans (h.trans (List.perm_insertionSort _ b).symm))
      (List.sorted_insertionSort _ a) (List.sorted_insertionSort _ b))

/-- Python `list.remove(item)`: removes the first occurrence.  (Python
raises `ValueError` when the item is absent; in the sweep every removed tag
was appended by the matching lower event, so the item is always present and
the total variant is faithful there.) -/
def removeOne : List String → String → List String
  | [], _ => []
  | x :: rest, a => if x = a then rest else x :: removeOne rest a

/-- `for item in interval.data: data_stack.remove(item)`. -/
def removeAll (stack : List String) (items : List String) : List String :=
  items.foldl removeOne stack

/-- Insert into a list sorted by `Bound.cmp` on `key`, after all elements
whose key is less than or equal: together with `sortByBound` this is a
stable sort, hence observationally equal to Python's stable
`sorted(bounds, key=lambda i: i[0])`. -/
def insertSorted {α : Type} (key : α → Bound) (x : α) : List α → List α
  | [] => [x]
  | y :: ys =>
    if Bound.cmp (key y) (key x) = .gt then x :: y :: ys
    else y :: insertSorted key x ys

/-- Stable sort by `Bound.cmp` on `key` (model of Python's stable
`sorted(..., key=lambda i: i[0])` in `_list_bounds`). -/
def sortByBound {α : Type} (key : α → Bound) (l : List α) : List α :=
  l.foldl (fun acc x => insertSorted key x acc) []

/-- The unsorted `(bound, owner_interval)` pairs built by `_list_bounds` in
`interval.py`: each interval contributes `(lower, interval)` then
`(upper, interval)`. -/
def intervalPairs (intervals : List PyInterval) : List (Bound × PyInterval) :=
  intervals.foldr (fun i acc => (i.lower, i) :: (i.upper, i) :: acc) []

/-- `_list_bounds` from `interval.py`: the pairs, sorted by bound. -/
def listBounds (intervals : List PyInterval) : List (Bound × PyInterval) :=
  sortByBound (fun p => p.1) (intervalPairs intervals)

/-- Modelled from the spec: `Bound.is_lower`, which the sweep loops read, is
absent from `pyinter/bound.py`.  Per spec section 4.3 the sweep flattens
"every input interval into two tagged endpoint events
`(Bound, owning_interval, is_lower)`"; we tag the two endpoint events of
each interval at flatten time and sort stably by bound as `_list_bounds`
does.  Used only by the `...Spec` variants of the sweep functions, which
show what the sweep computes once `is_lower` means "this event is the
owning interval's lower endpoint". -/
def listEvents (intervals : List PyInterval) : List (Bound × PyInterval × Bool) :=
  sortByBound (fun e => e.1)
    (intervals.foldr (fun i acc => (i.lower, i, true) :: (i.upper, i, false) :: acc) [])

/-- The mutable state of the `union` sweep in `interval.py` (lines 119-124):
the output list (held here newest-first; `unionE` reverses it at the end),
`lower_bound`, `level`, `data_stack` and `data_set`. -/
structure UnionState where
  out : List PyInterval
  lower_bound : Option Bound
  level : Int
  data_stack : List String
  data_set : Finset String

/-- The closure `add_interval(lower, upper)` inside `union`
(`interval.py` lines 126-140): skip degenerate pieces (`lower >= upper`);
fuse into the previous output interval in place (`last_interval._upper =
upper`) when exactly adjacent with identical tags; otherwise append
`Interval(lower, upper, data_set=data_set)` (whose constructor check
passes, since `lower < upper` here). -/
def union_add_interval (lower upper : Bound) (st : UnionState) : UnionState :=
  if Bound.cmp lower upper ≠ .lt then st
  else
    match st.out with
    | last :: restOut =>
      if last.upper.is_opposite_of lower && decide (last.data = st.data_set) then
        { st with out := { last with upper := upper } :: restOut }
      else
        { st with out := ⟨lower, upper, st.data_set⟩ :: last :: restOut }
    | [] => { st with out := [⟨lower, upper, st.data_set⟩] }

/-- The `if bound.is_lower:` branch of the `union` sweep body
(`interval.py` lines 143-156). -/
def unionLowerStep (ignore_data : Bool) (bound : Bound) (interval : PyInterval)
    (st : UnionState) : UnionState :=
  -- `level += 1; if not lower_bound: lower_bound = bound`
  let lb := st.lower_bound.getD bound
  let st := { st with level := st.level + 1, lower_bound := some lb }
  if ignore_data then st
  else
    -- `data_stack.extend(interval.data); new_items = interval.data - data_set`
    let st := { st with data_stack := st.data_stack ++ dataList interval.data }
    let new_items := interval.data \ st.data_set
    if new_items = ∅ then st
    else
      -- `add_interval(lower_bound, ~bound); lower_bound = bound;
      --  data_set.update(new_items)`
      let st := union_add_interval lb (Bound.invert bound) st
      { st with lower_bound := some bound, data_set := st.data_set ∪ new_items }

/-- The `else:` (upper bound) branch of the `union` sweep body
(`interval.py` lines 157-175).  `lower_bound` is always set when an upper
event is processed at positive level (a lower event precedes it); the
`getD bound` default is never taken in any execution examined here. -/
def unionUpperStep (ignore_data : Bool) (bound : Bound) (interval : PyInterval)
    (st : UnionState) : UnionState :=
  let st := { st with level := st.level - 1 }
  if st.level = 0 then
    -- `add_interval(lower_bound, bound)` then reset and `continue`
    let st := union_add_interval (st.lower_bound.getD bound) bound st
    { st with lower_bound := none, data_stack := [], data_set := ∅ }
  else if ignore_data = false ∧ interval.data ≠ ∅ then
    -- `for item in interval.data: data_stack.remove(item)`
    let st := { st with data_stack := removeAll st.data_stack (dataList interval.data) }
    let new_data_set := st.data_stack.toFinset
    if new_data_set ≠ st.data_set then
      -- `add_interval(lower_bound, bound); lower_bound = ~bound`
      let st := union_add_interval (st.lower_bound.getD bound) bound st
      { st with lower_bound := some (Bound.invert bound), data_set := new_data_set }
    else st
  else st

/-- The `for bound, interval in bounds:` loop of `union` (`interval.py`
lines 142-176) as shipped: each iteration first reads `bound.is_lower`. -/
def unionLoop (ignore_data : Bool) :
    List (Bound × PyInterval) → UnionState → Except PyErr (List PyInterval)
  | [], st => .ok st.out.reverse
  | (bound, interval) :: rest, st => do
    let isl ← bound_is_lower bound
    unionLoop ignore_data rest
      (if isl then unionLowerStep ignore_data bound interval st
       else unionUpperStep ignore_data bound interval st)

/-- The free function `union(*intervals, ignore_data=...)` from
`interval.py` (lines 24-177), as shipped. -/
def unionE (intervals : List PyInterval) (ignore_data : Bool) :
    Except PyErr (List PyInterval) :=
  if intervals = [] then .ok []
  else unionLoop ignore_data (listBounds intervals) ⟨[], none, 0, [], ∅⟩

/-- The `union` sweep loop with working endpoint events (see `listEvents`). -/
def unionSpecLoop (ignore_data : Bool) :
    List (Bound × PyInterval × Bool) → UnionState → List PyInterval
  | [], st => st.out.reverse
  | (bound, interval, isl) :: rest, st =>
    unionSpecLoop ignore_data rest
      (if isl then unionLowerStep ignore_data bound interval st
       else unionUpperStep ignore_data bound interval st)

/-- `union(*intervals, ignore_data=...)` with working endpoint events:
identical to `unionE` except that `bound.is_lower` resolves to the event
tag of `listEvents` (see the `Modelled from the spec` note there). -/
def unionSpec (intervals : List PyInterval) (ignore_data : Bool) : List PyInterval :=
  if intervals = [] then []
  else unionSpecLoop ignore_data (listEvents intervals) ⟨[], none, 0, [], ∅⟩

/-- `intersection`'s pre-loop tag accumulation (`interval.py` lines 268-273):
empty when `ignore_data`, else `intervals[0].data.union(*rest)`. -/
def dataUnionOf (intervals : List PyInterval) : Finset String :=
  intervals.foldl (fun acc i => acc ∪ i.data) ∅

/-- The `for bound, interval in bounds:` loop of `intersection`
(`interval.py` lines 282-294) as shipped: each iteration first reads
`bound.is_lower`.  State: output (newest-first), `lower_bound`, `level`. -/
def interLoop (n : Int) (data_union : Finset String) :
    List (Bound × PyInterval) → List PyInterval × Option Bound × Int →
    Except PyErr (List PyInterval)
  | [], (out, _, _) => .ok out.reverse
  | (bound, _interval) :: rest, (out, lb, level) => do
    let isl ← bound_is_lower bound
    if isl then
      let level := level + 1
      interLoop n data_union rest (out, (if level = n then some bound else lb), level)
    else
      if level = n then do
        let iv ← PyInterval.make (lb.getD bound) bound data_union
        interLoop n data_union rest (iv :: out, lb, level - 1)
      else
        interLoop n data_union rest (out, lb, level - 1)

/-- The free function `intersection(*intervals, ignore_data=...)` from
`interval.py` (lines 180-296), as shipped. -/
def intersectionE (intervals : List PyInterval) (ignore_data : Bool) :
    Except PyErr (List PyInterval) :=
  if intervals = [] then .ok []
  else
    let data_union := if ignore_data then ∅ else dataUnionOf intervals
    interLoop intervals.length data_union (listBounds intervals) ([], none, 0)

/-- The `intersection` sweep loop with working endpoint events
(see `listEvents`). -/
def interSpecLoop (n : Int) (data_union : Finset String) :
    List (Bound × PyInterval × Bool) → List PyInterval × Option Bound × Int →
    Except PyErr (List PyInterval)
  | [], (out, _, _) => .ok out.reverse
  | (bound, _interval, isl) :: rest, (out, lb, level) =>
    if isl then
      let level := level + 1
      interSpecLoop n data_union rest (out, (if level = n then some bound else lb), level)
    else
      if level = n then do
        let iv ← PyInterval.make (lb.getD bound) bound data_union
        interSpecLoop n data_union rest (iv :: out, lb, level - 1)
      else
        interSpecLoop n data_union rest (out, lb, level - 1)

/-- `intersection(*intervals, ignore_data=...)` with working endpoint
events: identical to `intersectionE` except that `bound.is_lower` resolves
to the event tag of `listEvents`. -/
def interSpec (intervals : List PyInterval) (ignore_data : Bool) :
    Except PyErr (List PyInterval) :=
  if intervals = [] then .ok []
  else
    let data_union := if ignore_data then ∅ else dataUnionOf intervals
    interSpecLoop intervals.length data_union (listEvents intervals) ([], none, 0)

/-- The `for bound, interval in all_bounds:` loop of `set_intersection`
(`interval.py` lines 360-379) as shipped.  State: output (newest-first),
`lower_bound`, `data_stack`, `level`. -/
def setInterLoop (n : Int) (ignore_data : Bool) :
    List (Bound × PyInterval) →
    List PyInterval × Option Bound × List String × Int →
    Except PyErr (List PyInterval)
  | [], (out, _, _, _) => .ok out.reverse
  | (bound, interval) :: rest, (out, lb, stack, level) => do
    let isl ← bound_is_lower bound
    if isl then
      let level := level + 1
      let stack := if ignore_data then stack else stack ++ dataList interval.data
      setInterLoop n ignore_data rest
        (out, (if level = n then some bound else lb), stack, level)
    else if level = n then do
      let iv ← PyInterval.make (lb.getD bound) bound stack.toFinset
      let stack := if ignore_data then stack else removeAll stack (dataList interval.data)
      setInterLoop n ignore_data rest (iv :: out, lb, stack, level - 1)
    else
      let stack := if ignore_data then stack else removeAll stack (dataList interval.data)
      setInterLoop n ignore_data rest (out, lb, stack, level - 1)

/-- `itertools.chain(*interval_sets)`. -/
def chainAll (groups : List (List PyInterval)) : List PyInterval :=
  groups.foldr (fun g acc => g ++ acc) []

/-- The free function `set_intersection(*interval_sets, ignore_data=...)`
from `interval.py` (lines 299-381), as shipped. -/
def set_intersectionE (groups : List (List PyInterval)) (ignore_data : Bool) :
    Except PyErr (List PyInterval) :=
  if groups = [] then .ok []
  else setInterLoop groups.length ignore_data (listBounds (chainAll groups)) ([], none, [], 0)

/-- The `set_intersection` sweep loop with working endpoint events
(see `listEvents`). -/
def setInterSpecLoop (n : Int) (ignore_data : Bool) :
    List (Bound × PyInterval × Bool) →
    List PyInterval × Option Bound × List String × Int →
    Except PyErr (List PyInterval)
  | [], (out, _, _, _) => .ok out.reverse
  | (bound, interval, isl) :: rest, (out, lb, stack, level) =>
    if isl then
      let level := level + 1
      let stack := if ignore_data then stack else stack ++ dataList interval.data
      setInterSpecLoop n ignore_data rest
        (out, (if level = n then some bound else lb), stack, level)
    else if level = n then do
      let iv ← PyInterval.make (lb.getD bound) bound stack.toFinset
      let stack := if ignore_data then stack else removeAll stack (dataList interval.data)
      setInterSpecLoop n ignore_data rest (iv :: out, lb, stack, level - 1)
    else
      let stack := if ignore_data then stack else removeAll stack (dataList interval.data)
      setInterSpecLoop n ignore_data rest (out, lb, stack, level - 1)

/-- `set_intersection(*interval_sets, ignore_data=...)` with working
endpoint events: identical to `set_intersectionE` except that
`bound.is_lower` resolves to the event tag of `listEvents`. -/
def setInterSpec (groups : List (List PyInterval)) (ignore_data : Bool) :
    Except PyErr (List PyInterval) :=
  if groups = [] then .ok []
  else setInterSpecLoop groups.length ignore_data (listEvents (chainAll groups)) ([], none, [], 0)

/-- The interval `Interval.open(NEGATIVE_INFINITY, INFINITY)` returned by
`invert()` with no inputs. -/
def unboundedIv : PyInterval := ⟨⟨.ninf, .gt⟩, ⟨.inf, .lt⟩, ∅⟩

/-- The closure `add_interval(lower, upper)` inside `invert` (`interval.py`
lines 421-423): append `Interval(lower, upper)` (no data; the constructor
check passes since `lower < upper`), skip degenerate gaps. -/
def invert_add (lower upper : Bound) (acc : List PyInterval) : List PyInterval :=
  if Bound.cmp lower upper = .lt then ⟨lower, upper, ∅⟩ :: acc else acc

/-- The `for bound, interval in bounds:` loop of `invert` (`interval.py`
lines 425-431) as shipped, including the final
`add_interval(lower_bound, Bound.lt(INFINITY))`.  `acc` holds the emitted
gaps newest-first. -/
def invertLoop :
    List (Bound × PyInterval) → Bound → List PyInterval → Except PyErr (List PyInterval)
  | [], lb, acc => .ok (invert_add lb ⟨.inf, .lt⟩ acc).reverse
  | (bound, _interval) :: rest, lb, acc => do
    let isl ← bound_is_lower bound
    if isl then invertLoop rest lb (invert_add lb (Bound.invert bound) acc)
    else invertLoop rest (Bound.invert bound) acc

/-- The free function `invert(*intervals)` from `interval.py`
(lines 384-433), as shipped: canonicalize through
`union(*intervals, ignore_data=True)`, then walk the bounds emitting the
gaps, starting from `Bound.gt(NEGATIVE_INFINITY)`. -/
def invertE (intervals : List PyInterval) : Except PyErr (List PyInterval) :=
  if intervals = [] then .ok [unboundedIv]
  else do
    let canon ← unionE intervals true
    invertLoop (listBounds canon) ⟨.ninf, .gt⟩ []

/-- The `invert` walk with working endpoint events (see `listEvents`). -/
def invertSpecLoop :
    List (Bound × PyInterval × Bool) → Bound → List PyInterval → List PyInterval
  | [], lb, acc => (invert_add lb ⟨.inf, .lt⟩ acc).reverse
  | (bound, _interval, isl) :: rest, lb, acc =>
    if isl then invertSpecLoop rest lb (invert_add lb (Bound.invert bound) acc)
    else invertSpecLoop rest (Bound.invert bound) acc

/-- `invert(*intervals)` with working endpoint events: identical to
`invertE` except that `bound.is_lower` resolves to the event tag of
`listEvents` (and hence the canonicalizing inner `union` is `unionSpec`). -/
def invertSpec (intervals : List PyInterval) : List PyInterval :=
  if intervals = [] then [unboundedIv]
  else invertSpecLoop (listEvents (unionSpec intervals true)) ⟨.ninf, .gt⟩ []

/-- `Interval.intersect` from `interval.py` (lines 771-801), as shipped:
`result = intersection(self, other); return result[0] if result else None`
(`other` here is always an interval object, which is truthy, so the
`if not other: return None` guard does not fire). -/
def PyInterval.intersect (self other : PyInterval) :
    Except PyErr (Option PyInterval) := do
  let result ← intersectionE [self, other] false
  .ok result.head?

/-- `Interval.intersect` with working endpoint events. -/
def PyInterval.intersectSpec (self other : PyInterval) :
    Except PyErr (Option PyInterval) := do
  let result ← interSpec [self, other] false
  .ok result.head?

/-- Insert into a list sorted by `PyInterval.cmp`, after all elements less
than or equal: models the pop-min order of `heapq` on intervals
(`Interval.__cmp__` ordering; `heapq` breaks ties arbitrarily, and
intervals comparing equal are interchangeable for every use below). -/
def insertInterval (x : PyInterval) : List PyInterval → List PyInterval
  | [] => [x]
  | y :: ys =>
    if PyInterval.cmp y x = .gt then x :: y :: ys
    else y :: insertInterval x ys

/-- `heapq.heapify(queue)`: reorder so that pops return minimal elements. -/
def sortIntervals (l : List PyInterval) : List PyInterval :=
  l.foldl (fun acc x => insertInterval x acc) []

/-- Python `set.add` on an `IntervalSet` (a `set` subclass): a no-op when an
equal element (`Interval.__eq__`, i.e. `__cmp__ == 0`, which ignores `data`)
is already present. -/
def rawAdd (s : List PyInterval) (i : PyInterval) : List PyInterval :=
  if s.any (fun j => PyInterval.cmp j i = .eq) then s else s ++ [i]

/-- `raw.update(result)`: add every interval of a list to a fresh set. -/
def rawSet (l : List PyInterval) : List PyInterval :=
  l.foldl rawAdd []

/-- `Interval.union` from `interval.py` (lines 803-828):
`self._create_set(union(self, other))`, an `IntervalSet` built with
`check_overlaps=False`, i.e. the raw set of the sweep's output list.
(This is what `interval | last_interval` calls inside
`IntervalSet.update`; the `other` operand is an interval, hence truthy.) -/
def PyInterval.unionFn (self other : PyInterval) : Except PyErr (List PyInterval) := do
  let r ← unionE [self, other] false
  .ok (rawSet r)

/-- The body of the `while queue:` loop of `IntervalSet.update`
(`interval_set.py` lines 217-234), fuel-bounded (the loop re-pushes into
the heap, so it is not structurally recursive; `outOfFuel` is never
returned when the fuel exceeds the number of iterations actually taken).
`union = interval | last_interval` is always an `IntervalSet` in the
source, so the `isinstance(union, IntervalSet)` branch always runs; its
`for i in union:` iterates a Python set in arbitrary order - each member is
handled independently (at most one member compares equal-lower to
`interval`), so we iterate in list order. -/
def updateLoop : Nat → List PyInterval → Option PyInterval → List PyInterval →
    Except PyErr (List PyInterval)
  | 0, _, _, _ => .error .outOfFuel
  | _ + 1, [], last_interval, acc =>
    -- `if last_interval: raw.add(last_interval)`
    .ok (match last_interval with
         | some li => rawAdd acc li
         | none => acc)
  | fuel + 1, interval :: queue, last_interval, acc =>
    match last_interval with
    | none => updateLoop fuel queue (some interval) acc
    | some last => do
      let u ← PyInterval.unionFn interval last
      let step := u.foldl
        (fun (s : List PyInterval × Option PyInterval × List PyInterval) i =>
          if Bound.cmp i.lower interval.lower = .lt then (rawAdd s.1 i, s.2.1, s.2.2)
          else if Bound.cmp i.lower interval.lower = .eq then (s.1, some i, s.2.2)
          else (s.1, s.2.1, insertInterval i s.2.2))
        (acc, some last, queue)
      updateLoop fuel step.2.2 step.2.1 step.1

/-- `IntervalSet.update` from `interval_set.py` (lines 187-237): heap all
current members and the members of `others`, then run the merge loop.
The fuel `queue.length + 2` covers every iteration the shipped code can
take before raising (each iteration either consumes one queue element or
raises inside `interval | last_interval`). -/
def intervalSetUpdate (selfSet : List PyInterval) (others : List (List PyInterval)) :
    Except PyErr (List PyInterval) :=
  let queue := sortIntervals selfSet
  let queue := others.foldl (fun q other => other.foldl (fun q i => insertInterval i q) q) queue
  updateLoop (queue.length + 2) queue none []

/-- `IntervalSet.__init__` from `interval_set.py` (lines 29-37): empty set
for falsy input; `self.update(iterable)` when `check_overlaps`; raw storage
otherwise. -/
def intervalSetInit (iterable : List PyInterval) (check_overlaps : Bool) :
    Except PyErr (List PyInterval) :=
  if iterable = [] then .ok []
  else if check_overlaps then intervalSetUpdate [] [iterable]
  else .ok (rawSet iterable)

/-! ## Helper lemmas -/

theorem insertSorted_length {α : Type} (key : α → Bound) (x : α) (l : List α) :
    (insertSorted key x l).length = l.length + 1 := by
  induction l with
  | nil => rfl
  | cons y ys ih =>
    simp only [insertSorted]
    split
    · simp
    · simp [ih]

theorem sortByBound_length {α : Type} (key : α → Bound) (l : List α) :
    (sortByBound key l).length = l.length := by
  have h : ∀ (m : List α) (acc : List α),
      (m.foldl (fun a x => insertSorted key x a) acc).length = acc.length + m.length := by
    intro m
    induction m with
    | nil => intro acc; simp
    | cons y ys ih =>
      intro acc
      rw [List.foldl_cons, ih, insertSorted_length]
      simp only [List.length_cons]
      omega
  simpa using h l []

theorem intervalPairs_length (l : List PyInterval) :
    (intervalPairs l).length = 2 * l.length := by
  induction l with
  | nil => rfl
  | cons y ys ih => simp [intervalPairs] at ih ⊢; omega

theorem listBounds_length (l : List PyInterval) :
    (listBounds l).length = 2 * l.length := by
  simp [listBounds, sortByBound_length, intervalPairs_length]

theorem listBounds_ne_nil (l : List PyInterval) (h : l ≠ []) :
    listBounds l ≠ [] := by
  intro hb
  have hl := listBounds_length l
  rw [hb] at hl
  cases l with
  | nil => exact h rfl
  | cons x xs => simp at hl

theorem unionLoop_cons_error (ig : Bool) (b : Bound) (i : PyInterval)
    (rest : List (Bound × PyInterval)) (st : UnionState) :
    unionLoop ig ((b, i) :: rest) st = .error .attributeError := rfl

theorem interLoop_cons_error (n : Int) (du : Finset String) (b : Bound) (i : PyInterval)
    (rest : List (Bound × PyInterval)) (st : List PyInterval × Option Bound × Int) :
    interLoop n du ((b, i) :: rest) st = .error .attributeError := rfl

theorem setInterLoop_cons_error (n : Int) (ig : Bool) (b : Bound) (i : PyInterval)
    (rest : List (Bound × PyInterval))
    (st : List PyInterval × Option Bound × List String × Int) :
    setInterLoop n ig ((b, i) :: rest) st = .error .attributeError := rfl

theorem invertLoop_cons_error (b : Bound) (i : PyInterval)
    (rest : List (Bound × PyInterval)) (lb : Bound) (acc : List PyInterval) :
    invertLoop ((b, i) :: rest) lb acc = .error .attributeError := rfl

theorem unionE_error_of_ne_nil (l : List PyInterval) (ig : Bool) (h : l ≠ []) :
    unionE l ig = .error .attributeError := by
  unfold unionE
  rw [if_neg h]
  rcases hb : listBounds l with _ | ⟨⟨b, i⟩, rest⟩
  · exact absurd hb (listBounds_ne_nil l h)
  · exact unionLoop_cons_error ig b i rest _

theorem intersectionE_error_of_ne_nil (l : List PyInterval) (ig : Bool) (h : l ≠ []) :
    intersectionE l ig = .error .attributeError := by
  unfold intersectionE
  rw [if_neg h]
  rcases hb : listBounds l with _ | ⟨⟨b, i⟩, rest⟩
  · exact absurd hb (listBounds_ne_nil l h)
  · exact interLoop_cons_error _ _ b i rest _

theorem chainAll_eq_nil_of_groups_nil : chainAll [] = [] := rfl

theorem set_intersectionE_error_of_ne_nil (gs : List (List PyInterval)) (ig : Bool)
    (h : chainAll gs ≠ []) :
    set_intersectionE gs ig = .error .attributeError := by
  unfold set_intersectionE
  have hg : gs ≠ [] := by
    intro hgs
    rw [hgs] at h
    exact h rfl
  rw [if_neg hg]
  rcases hb : listBounds (chainAll gs) with _ | ⟨⟨b, i⟩, rest⟩
  · exact absurd hb (listBounds_ne_nil _ h)
  · exact setInterLoop_cons_error _ _ b i rest _

theorem invertE_error_of_ne_nil (l : List PyInterval) (h : l ≠ []) :
    invertE l = .error .attributeError := by
  unfold invertE
  rw [if_neg h, unionE_error_of_ne_nil l true h]
  rfl

theorem cmpInt_eq_iff (a b : Int) : cmpInt a b = .eq ↔ a = b := by
  unfold cmpInt
  split_ifs <;> simp <;> omega

theorem cmpInt_self (a : Int) : cmpInt a a = .eq := (cmpInt_eq_iff a a).mpr rfl

theorem cmpEVal_eq_iff (u v : EVal) : cmpEVal u v = .eq ↔ u = v := by
  cases u <;> cases v <;> simp [cmpEVal, cmpInt_eq_iff]

theorem cmpEVal_self (v : EVal) : cmpEVal v v = .eq := (cmpEVal_eq_iff v v).mpr rfl

theorem operatorOrder_cmp_eq_iff (o p : Op) :
    cmpInt (operatorOrder o) (operatorOrder p) = .eq ↔ o = p := by
  cases o <;> cases p <;> decide

theorem bound_cmp_eq_iff (a b : Bound) :
    Bound.cmp a b = .eq ↔ a.value = b.value ∧ a.op = b.op := by
  unfold Bound.cmp
  rcases hv : cmpEVal a.value b.value with _ | _ | _
  · simp [Ordering.then]
    intro hval
    rw [hval, cmpEVal_self] at hv
    exact absurd hv (by simp)
  · simp [Ordering.then, operatorOrder_cmp_eq_iff]
    intro _
    exact (cmpEVal_eq_iff _ _).mp hv
  · simp [Ordering.then]
    intro hval
    rw [hval, cmpEVal_self] at hv
    exact absurd hv (by simp)

/-! ## Claim theorems -/

/-- C2: every call to `union`, `intersection`, `set_intersection` or
`invert` that sees at least one input interval reads `bound.is_lower` in
its sweep loop; class `Bound` defines no attribute `is_lower`, so the call
raises `AttributeError` instead of returning.  Only the zero-input fast
paths return normally: `union() == []`, `intersection() == []`,
`set_intersection` with no intervals returns `[]`, and
`invert() == [Interval.open(NEGATIVE_INFINITY, INFINITY)]`. -/
theorem sweep_is_lower_attribute_error :
    boundClassMembers.contains "is_lower" = false
    ∧ (∀ (l : List PyInterval) (ig : Bool), l ≠ [] →
        unionE l ig = .error .attributeError)
    ∧ (∀ (l : List PyInterval) (ig : Bool), l ≠ [] →
        intersectionE l ig = .error .attributeError)
    ∧ (∀ (gs : List (List PyInterval)) (ig : Bool), chainAll gs ≠ [] →
        set_intersectionE gs ig = .error .attributeError)
    ∧ (∀ (l : List PyInterval), l ≠ [] → invertE l = .error .attributeError)
    ∧ (∀ ig : Bool, unionE [] ig = .ok [] ∧ intersectionE [] ig = .ok [])
    ∧ (∀ (gs : List (List PyInterval)) (ig : Bool), chainAll gs = [] →
        set_intersectionE gs ig = .ok [])
    ∧ invertE [] = .ok [unboundedIv] := by
  refine ⟨by decide, unionE_error_of_ne_nil, intersectionE_error_of_ne_nil,
    set_intersectionE_error_of_ne_nil, invertE_error_of_ne_nil,
    fun ig => ⟨rfl, rfl⟩, ?_, rfl⟩
  intro gs ig h
  unfold set_intersectionE
  by_cases hg : gs = []
  · rw [if_pos hg]
  · rw [if_neg hg, h]
    rfl

theorem sweep_is_lower_attribute_error_witness :
    unionE [unboundedIv] false = .error .attributeError
    ∧ intersectionE [unboundedIv] true = .error .attributeError
    ∧ set_intersectionE [[unboundedIv]] false = .error .attributeError
    ∧ invertE [unboundedIv] = .error .attributeError
    ∧ set_intersectionE [[], []] false = .ok [] :=
  ⟨sweep_is_lower_attribute_error.2.1 [unboundedIv] false (by decide),
   sweep_is_lower_attribute_error.2.2.1 [unboundedIv] true (by decide),
   sweep_is_lower_attribute_error.2.2.2.1 [[unboundedIv]] false (by decide),
   sweep_is_lower_attribute_error.2.2.2.2.1 [unboundedIv] (by decide),
   sweep_is_lower_attribute_error.2.2.2.2.2.2.1 [[], []] false (by decide)⟩

/-- C6: `Bound` comparison is determined first by value and, at equal
value, by the fixed kind precedence `lt < ge < le < gt` (the
`OPERATOR_ORDER` map); in particular
`Bound.lt(6) < Bound.ge(6) < Bound.le(6) < Bound.gt(6)`, and two `Bound`s
compare equal if and only if they have the same value and the same kind. -/
theorem bound_cmp_value_then_kind_precedence :
    (∀ a b : Bound, cmpEVal a.value b.value ≠ .eq →
      Bound.cmp a b = cmpEVal a.value b.value)
    ∧ (∀ a b : Bound, a.value = b.value →
        Bound.cmp a b = cmpInt (operatorOrder a.op) (operatorOrder b.op))
    ∧ (Bound.cmp (Bound.mklt (.fin 6)) (Bound.mkge (.fin 6)) = .lt
       ∧ Bound.cmp (Bound.mkge (.fin 6)) (Bound.mkle (.fin 6)) = .lt
       ∧ Bound.cmp (Bound.mkle (.fin 6)) (Bound.mkgt (.fin 6)) = .lt)
    ∧ (∀ a b : Bound, Bound.cmp a b = .eq ↔ a.value = b.value ∧ a.op = b.op) := by
  refine ⟨?_, ?_, by decide, bound_cmp_eq_iff⟩
  · intro a b h
    unfold Bound.cmp
    cases hv : cmpEVal a.value b.value with
    | lt => rfl
    | eq => exact absurd hv h
    | gt => rfl
  · intro a b h
    unfold Bound.cmp
    rw [h, cmpEVal_self]
    rfl

theorem bound_cmp_value_then_kind_precedence_witness :
    Bound.cmp (Bound.mkgt (.fin 5)) (Bound.mklt (.fin 6)) = cmpEVal (.fin 5) (.fin 6)
    ∧ Bound.cmp (Bound.mklt (.fin 6)) (Bound.mkge (.fin 6)) =
        cmpInt (operatorOrder .lt) (operatorOrder .ge)
    ∧ (Bound.cmp (Bound.mkle (.fin 3)) (Bound.mkle (.fin 3)) = .eq ↔
        (EVal.fin 3 = EVal.fin 3 ∧ Op.le = Op.le)) :=
  ⟨bound_cmp_value_then_kind_precedence.1 (Bound.mkgt (.fin 5)) (Bound.mklt (.fin 6))
     (by decide),
   bound_cmp_value_then_kind_precedence.2.1 (Bound.mklt (.fin 6)) (Bound.mkge (.fin 6)) rfl,
   bound_cmp_value_then_kind_precedence.2.2.2 (Bound.mkle (.fin 3)) (Bound.mkle (.fin 3))⟩

/-- C7: `Interval.overlaps` returns true exactly when
`self.lower <= other.upper` and `self.upper >= other.lower` under `Bound`
ordering; the touching open interval `(1, 2)` and closed-open `[2, 3)` do
not overlap (in either order), and indeed the shared point `2` is
contained by `[2, 3)` but not by `(1, 2)`. -/
theorem overlaps_iff_bounds_and_touching_example :
    (∀ a b : PyInterval, PyInterval.overlaps a b = true ↔
      (Bound.cmp a.lower b.upper ≠ .gt ∧ Bound.cmp a.upper b.lower ≠ .lt))
    ∧ PyInterval.overlaps ⟨Bound.mkgt (.fin 1), Bound.mklt (.fin 2), ∅⟩
        ⟨Bound.mkge (.fin 2), Bound.mklt (.fin 3), ∅⟩ = false
    ∧ PyInterval.overlaps ⟨Bound.mkge (.fin 2), Bound.mklt (.fin 3), ∅⟩
        ⟨Bound.mkgt (.fin 1), Bound.mklt (.fin 2), ∅⟩ = false
    ∧ PyInterval.containsValue ⟨Bound.mkgt (.fin 1), Bound.mklt (.fin 2), ∅⟩ (.fin 2) = false
    ∧ PyInterval.containsValue ⟨Bound.mkge (.fin 2), Bound.mklt (.fin 3), ∅⟩ (.fin 2) = true := by
  refine ⟨?_, by decide, by decide, by decide, by decide⟩
  intro a b
  simp [PyInterval.overlaps]

theorem overlaps_iff_bounds_and_touching_example_witness :
    PyInterval.overlaps ⟨Bound.mkge (.fin 0), Bound.mkle (.fin 2), ∅⟩
        ⟨Bound.mkge (.fin 1), Bound.mkle (.fin 3), {"data"}⟩ = true ↔
      (Bound.cmp (Bound.mkge (.fin 0)) (Bound.mkle (.fin 3)) ≠ .gt
       ∧ Bound.cmp (Bound.mkle (.fin 2)) (Bound.mkge (.fin 1)) ≠ .lt) :=
  overlaps_iff_bounds_and_touching_example.1
    ⟨Bound.mkge (.fin 0), Bound.mkle (.fin 2), ∅⟩
    ⟨Bound.mkge (.fin 1), Bound.mkle (.fin 3), {"data"}⟩

/-- C8: constructing an `Interval` raises `ValueError` exactly when the
given lower `Bound` is strictly greater than the given upper `Bound`;
otherwise the constructor stores both endpoints unchanged (no clamping or
swapping), and the degenerate single-point closed interval
(`GE v` paired with `LE v`) is accepted. -/
theorem interval_init_raises_iff_lower_gt_upper :
    (∀ (l u : Bound) (d : Finset String),
      (Bound.cmp l u = .gt → PyInterval.make l u d = .error .valueError)
      ∧ (Bound.cmp l u ≠ .gt → PyInterval.make l u d = .ok ⟨l, u, d⟩))
    ∧ (∀ v : EVal, PyInterval.make (Bound.mkge v) (Bound.mkle v) ∅ =
        .ok ⟨Bound.mkge v, Bound.mkle v, ∅⟩)
    ∧ PyInterval.closed (.fin 5) (.fin 5) ∅ =
        .ok ⟨Bound.mkge (.fin 5), Bound.mkle (.fin 5), ∅⟩
    ∧ PyInterval.closed (.fin 5) (.fin 4) ∅ = .error .valueError := by
  refine ⟨?_, ?_, by decide, by decide⟩
  · intro l u d
    constructor
    · intro h
      unfold PyInterval.make
      rw [if_pos h]
    · intro h
      unfold PyInterval.make
      rw [if_neg h]
  · intro v
    unfold PyInterval.make
    rw [if_neg]
    intro hc
    simp [Bound.cmp, Bound.mkge, Bound.mkle, cmpEVal_self, Ordering.then,
      operatorOrder, cmpInt] at hc

theorem interval_init_raises_iff_lower_gt_upper_witness :
    PyInterval.make (Bound.mkge (.fin 1)) (Bound.mkle (.fin 0)) ∅ = .error .valueError
    ∧ PyInterval.make (Bound.mkge (.fin 0)) (Bound.mkle (.fin 1)) {"data"} =
        .ok ⟨Bound.mkge (.fin 0), Bound.mkle (.fin 1), {"data"}⟩
    ∧ PyInterval.make (Bound.mkge (.fin 7)) (Bound.mkle (.fin 7)) ∅ =
        .ok ⟨Bound.mkge (.fin 7), Bound.mkle (.fin 7), ∅⟩ :=
  ⟨(interval_init_raises_iff_lower_gt_upper.1 _ _ ∅).1 (by decide),
   (interval_init_raises_iff_lower_gt_upper.1 _ _ {"data"}).2 (by decide),
   interval_init_raises_iff_lower_gt_upper.2.1 (.fin 7)⟩

/-- C9: `Bound` inversion is an involution with no fixed point:
`~(~b) == b` and `~b != b` for every `Bound`. -/
theorem bound_invert_involutive_no_fixed_point :
    ∀ b : Bound, Bound.invert (Bound.invert b) = b ∧ Bound.invert b ≠ b := by
  intro b
  cases b with
  | mk v o => cases o <;> exact ⟨rfl, by simp [Bound.invert, oppositeOp]⟩

theorem bound_invert_involutive_no_fixed_point_witness :
    Bound.invert (Bound.invert (Bound.mklt (.fin 5))) = Bound.mklt (.fin 5)
    ∧ Bound.invert (Bound.mklt (.fin 5)) ≠ Bound.mklt (.fin 5) :=
  bound_invert_involutive_no_fixed_point (Bound.mklt (.fin 5))

/-- C10: `Interval` comparison and hashing depend only on the two bounds,
never on the payload: two intervals with equal lower bounds and equal
upper bounds compare equal (`__cmp__ == 0`) and have equal hash keys
(hence equal Python hashes), whatever their `data` sets are. -/
theorem interval_eq_and_hash_ignore_data :
    ∀ a b : PyInterval, Bound.cmp a.lower b.lower = .eq →
      Bound.cmp a.upper b.upper = .eq →
      PyInterval.cmp a b = .eq ∧ PyInterval.hashKey a = PyInterval.hashKey b := by
  intro a b hl hu
  have hl2 := (bound_cmp_eq_iff _ _).mp hl
  have hu2 := (bound_cmp_eq_iff _ _).mp hu
  constructor
  · unfold PyInterval.cmp
    rw [hl, hu]
    rfl
  · unfold PyInterval.hashKey Bound.hashKey
    rw [hl2.1, hl2.2, hu2.1, hu2.2]

theorem interval_eq_and_hash_ignore_data_witness :
    PyInterval.cmp ⟨Bound.mkgt (.fin 1), Bound.mklt (.fin 2), {"data"}⟩
      ⟨Bound.mkgt (.fin 1), Bound.mklt (.fin 2), ∅⟩ = .eq
    ∧ PyInterval.hashKey ⟨Bound.mkgt (.fin 1), Bound.mklt (.fin 2), {"data"}⟩ =
        PyInterval.hashKey ⟨Bound.mkgt (.fin 1), Bound.mklt (.fin 2), ∅⟩ :=
  interval_eq_and_hash_ignore_data _ _ (by decide) (by decide)

/-- C1: evaluation of the shipped code at the claimed input.
`union(Interval.closed(6, 8, 'data'), Interval.closed(4, 10))` raises
`AttributeError` (the sweep reads the missing `Bound.is_lower`), instead of
returning the three segments `[4, 6)`, `[6, 8]: data`, `(8, 10]` promised
by the claim and by `union`'s own doctest (`interval.py` lines 61-62).
With working endpoint events (`unionSpec`) the sweep does return exactly
those three segments in that order. -/
theorem union_tag_split_doctest_raises :
    PyInterval.closed (.fin 6) (.fin 8) {"data"} =
      .ok ⟨Bound.mkge (.fin 6), Bound.mkle (.fin 8), {"data"}⟩
    ∧ PyInterval.closed (.fin 4) (.fin 10) ∅ =
        .ok ⟨Bound.mkge (.fin 4), Bound.mkle (.fin 10), ∅⟩
    ∧ unionE [⟨Bound.mkge (.fin 6), Bound.mkle (.fin 8), {"data"}⟩,
              ⟨Bound.mkge (.fin 4), Bound.mkle (.fin 10), ∅⟩] false =
        .error .attributeError
    ∧ unionSpec [⟨Bound.mkge (.fin 6), Bound.mkle (.fin 8), {"data"}⟩,
                 ⟨Bound.mkge (.fin 4), Bound.mkle (.fin 10), ∅⟩] false =
        [⟨Bound.mkge (.fin 4), Bound.mklt (.fin 6), ∅⟩,
         ⟨Bound.mkge (.fin 6), Bound.mkle (.fin 8), {"data"}⟩,
         ⟨Bound.mkgt (.fin 8), Bound.mkle (.fin 10), ∅⟩] := by
  refine ⟨by decide, by decide, by decide, by decide⟩

/-- C3: evaluation of the shipped code.  `Interval.intersect` delegates to
the free function `intersection`, whose sweep reads the missing
`Bound.is_lower`, so `closed(1, 3).intersect(closed(0, 1, 'data'))` raises
`AttributeError` instead of returning the interval `[1, 1]: data` promised
by the claim and by `intersect`'s own doctest (`interval.py` lines
779-780).  With working endpoint events (`intersectSpec`) overlapping
inputs yield exactly `max(lowers)..min(uppers)` carrying the tag union
(here `max(ge 1, ge 0) = ge 1`, `min(le 3, le 1) = le 1`), and
non-overlapping inputs (`overlaps` false) yield the empty result. -/
theorem intersect_doctest_raises :
    PyInterval.intersect ⟨Bound.mkge (.fin 1), Bound.mkle (.fin 3), ∅⟩
        ⟨Bound.mkge (.fin 0), Bound.mkle (.fin 1), {"data"}⟩ =
      .error .attributeError
    ∧ PyInterval.intersectSpec ⟨Bound.mkge (.fin 1), Bound.mkle (.fin 3), ∅⟩
        ⟨Bound.mkge (.fin 0), Bound.mkle (.fin 1), {"data"}⟩ =
        .ok (some ⟨Bound.mkge (.fin 1), Bound.mkle (.fin 1), {"data"}⟩)
    ∧ PyInterval.overlaps ⟨Bound.mkge (.fin 1), Bound.mkle (.fin 3), ∅⟩
        ⟨Bound.mkge (.fin 0), Bound.mkle (.fin 1), {"data"}⟩ = true
    ∧ PyInterval.intersectSpec ⟨Bound.mkgt (.fin 1), Bound.mklt (.fin 3), ∅⟩
        ⟨Bound.mkge (.fin 3), Bound.mkle (.fin 4), {"data"}⟩ = .ok none
    ∧ PyInterval.overlaps ⟨Bound.mkgt (.fin 1), Bound.mklt (.fin 3), ∅⟩
        ⟨Bound.mkge (.fin 3), Bound.mkle (.fin 4), {"data"}⟩ = false := by
  refine ⟨by decide, by decide, by decide, by decide, by decide⟩

/-- C4: evaluation of the shipped code at the doctest input of
`interval_set.py` (lines 11-18).  `IntervalSet((closed(2, 3), open(1, 2),
closed(5, 6)))` with overlap checking calls `update`, whose second loop
iteration evaluates `interval | last_interval`, i.e. the `union` sweep,
which reads the missing `Bound.is_lower` and raises `AttributeError` - the
doctest instead promises the canonical set `(1, 3], [5, 6]`.  Only inputs
with at most one interval construct successfully. -/
theorem interval_set_construction_raises :
    intervalSetInit [⟨Bound.mkge (.fin 2), Bound.mkle (.fin 3), ∅⟩,
                     ⟨Bound.mkgt (.fin 1), Bound.mklt (.fin 2), ∅⟩,
                     ⟨Bound.mkge (.fin 5), Bound.mkle (.fin 6), ∅⟩] true =
      .error .attributeError
    ∧ intervalSetInit [⟨Bound.mkge (.fin 2), Bound.mkle (.fin 3), ∅⟩] true =
        .ok [⟨Bound.mkge (.fin 2), Bound.mkle (.fin 3), ∅⟩]
    ∧ intervalSetInit [] true = .ok [] := by
  refine ⟨by decide, by decide, by decide⟩

/-- C5: evaluation of the shipped code.  The round trip
`invert(invert(*xs))` raises `AttributeError` for every `xs` - even for
`xs = []`, where the inner `invert()` returns
`[Interval.open(NEGATIVE_INFINITY, INFINITY)]` and the outer call's sweep
reads the missing `Bound.is_lower` - so it never equals
`union(*xs, ignore_data=True)` (which is `[]` for `xs = []`).  `invert`'s
own doctest (`interval.py` line 391) promises `invert(*invert()) == []`.
With working endpoint events the round trip law does hold at these inputs:
`invertSpec (invertSpec xs) = unionSpec xs true`. -/
theorem invert_invert_roundtrip_raises :
    invertE [] = .ok [unboundedIv]
    ∧ invertE [unboundedIv] = .error .attributeError
    ∧ unionE [] true = .ok []
    ∧ invertE [⟨Bound.mkge (.fin 0), Bound.mkle (.fin 1), ∅⟩] = .error .attributeError
    ∧ invertSpec (invertSpec []) = unionSpec [] true
    ∧ invertSpec (invertSpec [⟨Bound.mkge (.fin 0), Bound.mkle (.fin 1), ∅⟩]) =
        unionSpec [⟨Bound.mkge (.fin 0), Bound.mkle (.fin 1), ∅⟩] true
    ∧ invertSpec (invertSpec [⟨Bound.mkgt (.fin 0), Bound.mklt (.fin 2), {"data"}⟩,
                              ⟨Bound.mkge (.fin 1), Bound.mkle (.fin 3), ∅⟩]) =
        unionSpec [⟨Bound.mkgt (.fin 0), Bound.mklt (.fin 2), {"data"}⟩,
                   ⟨Bound.mkge (.fin 1), Bound.mkle (.fin 3), ∅⟩] true := by
  refine ⟨by decide, by decide, by decide, by decide, by decide, by decide, by decide⟩
